import Mathlib

/-!
Verification of the alligator-strategy backtester
(`src/alligator_strategy/alligator_strategy.py`).

The per-bar signal generator and the stateful backtest loop are embedded
shallowly: prices, indicator values and capital are rationals (`ℚ`), the
`Signal` column is an `Int` (`1` = Long, `-1` = Short, `0` = Flat), and
the mutable loop state of `backtest_strategy` (`position`, `portfolio`,
`entry_price`, `trailing_stop`, `trades`) is an explicit record threaded
through a fold over the bar list.  Logging and the SQLite write-through
(`record_trade`) are external effects and are not modelled; the in-memory
trade list is the authoritative record the function returns.
-/

/-- One feature row, as consumed by `generate_signals`: the columns produced
by `calculate_alligator` (`Jaw`, `Teeth`, `Lips`) and `calculate_indicators`
(`ADX`, `CMO`, `Stoch_RSI`, `Volume_Change`, `EMA_50`, `MACD`,
`MACD_signal`), together with `Close`. -/
structure SignalRow where
  close : ℚ
  jaw : ℚ
  teeth : ℚ
  lips : ℚ
  adx : ℚ
  cmo : ℚ
  stoch_rsi : ℚ
  volume_change : ℚ
  ema_50 : ℚ
  macd : ℚ
  macd_signal : ℚ
deriving DecidableEq

/-- The long entry condition of `generate_signals`: the conjunction of the
nine comparisons in `long_condition`. -/
def long_condition (r : SignalRow) : Prop :=
  r.lips > r.teeth ∧ r.teeth > r.jaw ∧ r.close > r.lips ∧ r.adx > 30 ∧
    r.cmo > 40 ∧ r.stoch_rsi > 60 ∧ r.volume_change > 0 ∧
    r.close > r.ema_50 ∧ r.macd > r.macd_signal

/-- The short entry condition of `generate_signals`: the conjunction of the
nine comparisons in `short_condition`. -/
def short_condition (r : SignalRow) : Prop :=
  r.lips < r.teeth ∧ r.teeth < r.jaw ∧ r.close < r.lips ∧ r.adx > 30 ∧
    r.cmo < -40 ∧ r.stoch_rsi < 40 ∧ r.volume_change < 0 ∧
    r.close < r.ema_50 ∧ r.macd < r.macd_signal

instance (r : SignalRow) : Decidable (long_condition r) := by
  unfold long_condition; exact inferInstance

instance (r : SignalRow) : Decidable (short_condition r) := by
  unfold short_condition; exact inferInstance

/-- Per-row form of `generate_signals`: the `Signal` column starts at `0`,
rows matching `long_condition` are overwritten with `1`, and rows matching
`short_condition` are overwritten with `-1` afterwards (last write wins). -/
def generate_signals (r : SignalRow) : Int :=
  let s0 : Int := 0
  let s1 : Int := if long_condition r then 1 else s0
  let s2 : Int := if short_condition r then -1 else s1
  s2

/-- One bar as consumed by `backtest_strategy`: only the `Close`, `ATR` and
`Signal` columns are read by the loop. -/
structure Bar where
  close : ℚ
  atr : ℚ
  signal : Int
deriving DecidableEq

/-- Trade direction, the `direction` column of a trade record. -/
inductive Direction where
  | Long
  | Short
deriving DecidableEq

/-- Trade status: `Open` on entry, `Closed` on exit. -/
inductive TradeStatus where
  | Open
  | Closed
deriving DecidableEq

/-- One entry of the in-memory `trades` list of `backtest_strategy`
(timestamp and symbol strings are omitted; they are never read back). -/
structure Trade where
  direction : Direction
  entry_price : ℚ
  exit_price : Option ℚ
  profit : Option ℚ
  status : TradeStatus
deriving DecidableEq

/-- The trade dict appended on entry: `exit_price`/`profit` are `None`,
status is `Open`. -/
def openTrade (d : Direction) (entry : ℚ) : Trade :=
  { direction := d
    entry_price := entry
    exit_price := none
    profit := none
    status := TradeStatus.Open }

/-- The in-place `trades[-1].update({...})` performed on exit. -/
def closeTrade (exit_price profit : ℚ) (t : Trade) : Trade :=
  { t with
    exit_price := some exit_price
    profit := some profit
    status := TradeStatus.Closed }

/-- `trades[-1].update(f)`: apply `f` to the last element of the list. -/
def updateLast (f : Trade → Trade) : List Trade → List Trade
  | [] => []
  | [t] => [f t]
  | t :: t2 :: ts => t :: updateLast f (t2 :: ts)

/-- `volatility_factor = atr / data['Close'].iat[i]`. -/
def volatility_factor (b : Bar) : ℚ := b.atr / b.close

/-- The `stop_loss` value of the volatility-bucket chain at the top of the
loop body of `backtest_strategy`. -/
def stop_loss_distance (b : Bar) : ℚ :=
  if volatility_factor b < 0.01 then b.atr * 2
  else if volatility_factor b > 0.02 then b.atr * 1.5
  else b.atr * 1.75

/-- The `take_profit` value of the volatility-bucket chain at the top of the
loop body of `backtest_strategy`. -/
def take_profit_distance (b : Bar) : ℚ :=
  if volatility_factor b < 0.01 then b.atr * 4
  else if volatility_factor b > 0.02 then b.atr * 3
  else b.atr * 3.5

/-- `position_size_factor = max(0.5, min(1.5, 0.02 / volatility_factor))`. -/
def position_size_factor (b : Bar) : ℚ :=
  max 0.5 (min 1.5 (0.02 / volatility_factor b))

/-- The mutable loop state of `backtest_strategy`. -/
structure BState where
  position : ℚ
  portfolio : ℚ
  entry_price : ℚ
  trailing_stop : ℚ
  trades : List Trade
deriving DecidableEq

/-- `position, portfolio = 0, initial_capital` and
`trades, entry_price, trailing_stop = [], 0, 0`. -/
def initState (initial_capital : ℚ) : BState :=
  { position := 0
    portfolio := initial_capital
    entry_price := 0
    trailing_stop := 0
    trades := [] }

/-- The trailing-stop update inside the `elif position != 0` branch:
ratchet with `max` for a long, with `min` for a short, otherwise keep. -/
def update_trailing_stop (st : BState) (b : Bar) : ℚ :=
  if st.position > 0 ∧ b.close > st.entry_price + b.atr then
    max st.trailing_stop (b.close - b.atr * 1.5)
  else if st.position < 0 ∧ b.close < st.entry_price - b.atr then
    min st.trailing_stop (b.close + b.atr * 1.5)
  else st.trailing_stop

/-- One iteration of the `for i in range(len(data))` loop of
`backtest_strategy`: long entry / short entry (both only while
`position == 0`, sized from `initial_capital`), otherwise the exit branch
when `position != 0` (trailing-stop ratchet, then take-profit-or-stop
tests with this bar's `take_profit`), otherwise no change. -/
def stepBar (initial_capital risk_per_trade : ℚ) (st : BState) (b : Bar) :
    BState :=
  if b.signal = 1 ∧ st.position = 0 then
    { st with
      position := initial_capital * risk_per_trade * position_size_factor b /
        stop_loss_distance b
      entry_price := b.close
      trailing_stop := b.close - b.atr
      trades := st.trades ++ [openTrade Direction.Long b.close] }
  else if b.signal = -1 ∧ st.position = 0 then
    { st with
      position := -(initial_capital * risk_per_trade * position_size_factor b /
        stop_loss_distance b)
      entry_price := b.close
      trailing_stop := b.close + b.atr
      trades := st.trades ++ [openTrade Direction.Short b.close] }
  else if st.position ≠ 0 then
    if st.position > 0 ∧
        (b.close ≥ st.entry_price + take_profit_distance b ∨
          b.close ≤ update_trailing_stop st b) then
      { st with
        position := 0
        trailing_stop := update_trailing_stop st b
        portfolio := st.portfolio + (b.close - st.entry_price) * st.position
        trades := updateLast
          (closeTrade b.close ((b.close - st.entry_price) * st.position))
          st.trades }
    else if st.position < 0 ∧
        (b.close ≤ st.entry_price - take_profit_distance b ∨
          b.close ≥ update_trailing_stop st b) then
      { st with
        position := 0
        trailing_stop := update_trailing_stop st b
        portfolio := st.portfolio + (st.entry_price - b.close) * |st.position|
        trades := updateLast
          (closeTrade b.close ((st.entry_price - b.close) * |st.position|))
          st.trades }
    else { st with trailing_stop := update_trailing_stop st b }
  else st

/-- The profit formula of the forced-closure block:
`(exit_price - entry_price) * position if position > 0 else
(entry_price - exit_price) * abs(position)`, with `b` the last bar. -/
def forcedProfit (st : BState) (b : Bar) : ℚ :=
  if st.position > 0 then (b.close - st.entry_price) * st.position
  else (st.entry_price - b.close) * |st.position|

/-- The forced-closure block at the end of `backtest_strategy`: when a
position is still open after the loop, close it at the last bar's close
price (`data['Close'].iat[-1]`, passed here as `Option` since the loop
state can only be non-flat when the bar list is non-empty), adding the
profit to `portfolio` and closing the last trade in place.  Note the
source leaves the `position` variable untouched here. -/
def forcedClosure (st : BState) : Option Bar → BState
  | none => st
  | some b =>
      if st.position ≠ 0 then
        { st with
          portfolio := st.portfolio + forcedProfit st b
          trades := updateLast (closeTrade b.close (forcedProfit st b)) st.trades }
      else st

/-- The state after the loop and the forced-closure block of
`backtest_strategy`. -/
def finalState (initial_capital risk_per_trade : ℚ) (bars : List Bar) :
    BState :=
  forcedClosure
    (bars.foldl (stepBar initial_capital risk_per_trade)
      (initState initial_capital))
    bars.getLast?

/-- `backtest_strategy` returns `trades, portfolio`. -/
def backtest_strategy (initial_capital risk_per_trade : ℚ) (bars : List Bar) :
    List Trade × ℚ :=
  ((finalState initial_capital risk_per_trade bars).trades,
   (finalState initial_capital risk_per_trade bars).portfolio)

/-- Sum of the `profit` fields over the trades whose status is `Closed`. -/
def closedProfitSum : List Trade → ℚ
  | [] => 0
  | t :: ts =>
      (if t.status = TradeStatus.Closed then t.profit.getD 0 else 0) +
        closedProfitSum ts

/-- Well-formed market data: every bar has a positive average true range and
a positive close (the Feature Provider contract; `ATR ≤ 0` is the
`InvalidVolatility` error condition of the spec). -/
def WfBars (bars : List Bar) : Prop := ∀ b ∈ bars, 0 < b.atr ∧ 0 < b.close

/-- The columns `download_data` requires of the fetched frame. -/
def required_columns : List String :=
  ["Open", "High", "Low", "Close", "Volume"]

/-- The validation performed by `download_data` on the fetched frame
(the network fetch itself is external): `None` when the frame is empty,
`None` when a required column is missing, otherwise the data. -/
def download_data (cols : List String) (rows : List α) : Option (List α) :=
  if rows.isEmpty then none
  else if required_columns.all fun c => cols.contains c then some rows
  else none

/-- The loop invariant of `backtest_strategy` relating `portfolio`,
`position` and the trade list: capital is the initial capital plus all
realized (closed) profit; while flat every recorded trade is closed; while
in a position the trade list ends with the one open trade. -/
def BInv (initial_capital : ℚ) (st : BState) : Prop :=
  st.portfolio = initial_capital + closedProfitSum st.trades ∧
  (st.position = 0 → ∀ t ∈ st.trades, t.status = TradeStatus.Closed) ∧
  (st.position ≠ 0 → ∃ ts t, st.trades = ts ++ [t] ∧
    (∀ u ∈ ts, u.status = TradeStatus.Closed) ∧ t.status = TradeStatus.Open)

/-- A row satisfying all nine long conditions. -/
def rowLong : SignalRow :=
  { close := 4
    jaw := 1
    teeth := 2
    lips := 3
    adx := 31
    cmo := 41
    stoch_rsi := 61
    volume_change := 1
    ema_50 := 0
    macd := 1
    macd_signal := 0 }

/-- Scenario A, bar 0: close 100, ATR 2, long signal. -/
def barA0 : Bar := { close := 100, atr := 2, signal := 1 }

/-- Scenario A, bar 1: close 108, ATR 2, no signal. -/
def barA1 : Bar := { close := 108, atr := 2, signal := 0 }

/-- Re-entry bar for the sizing counterexample: identical to `barA0`. -/
def barA2 : Bar := { close := 100, atr := 2, signal := 1 }

/-- A bar with a non-positive ATR and a long signal. -/
def barNegAtr : Bar := { close := 100, atr := -1, signal := 1 }

/-- A loop state holding an open long position, used to instantiate the
conditional theorems about non-flat bars. -/
def stLong : BState :=
  { position := 1
    portfolio := 1000
    entry_price := 100
    trailing_stop := 98
    trades := [openTrade Direction.Long 100] }

/-- A loop state holding an open short position. -/
def stShort : BState :=
  { position := -1
    portfolio := 1000
    entry_price := 100
    trailing_stop := 102
    trades := [openTrade Direction.Short 100] }

/-! ### Helper lemmas -/

theorem updateLast_append (f : Trade → Trade) (ts : List Trade) (t : Trade) :
    updateLast f (ts ++ [t]) = ts ++ [f t] := by
  induction ts with
  | nil => rfl
  | cons a ts ih =>
    cases ts with
    | nil => rfl
    | cons a2 ts2 =>
      simpa [updateLast] using ih

theorem closedProfitSum_append (ts : List Trade) (t : Trade) :
    closedProfitSum (ts ++ [t]) =
      closedProfitSum ts +
        (if t.status = TradeStatus.Closed then t.profit.getD 0 else 0) := by
  induction ts with
  | nil => simp [closedProfitSum]
  | cons a ts ih => simp [closedProfitSum, ih]; ring

theorem half_le_position_size_factor (b : Bar) :
    (0.5 : ℚ) ≤ position_size_factor b := le_max_left _ _

theorem position_size_factor_le (b : Bar) :
    position_size_factor b ≤ 1.5 :=
  max_le (by norm_num) (min_le_left _ _)

theorem position_size_factor_pos (b : Bar) : 0 < position_size_factor b :=
  lt_of_lt_of_le (by norm_num) (half_le_position_size_factor b)

theorem stop_loss_distance_pos (b : Bar) (ha : 0 < b.atr) :
    0 < stop_loss_distance b := by
  unfold stop_loss_distance
  split_ifs <;> nlinarith

theorem entry_size_pos (cap risk : ℚ) (b : Bar) (hc : 0 < cap)
    (hr : 0 < risk) (ha : 0 < b.atr) :
    0 < cap * risk * position_size_factor b / stop_loss_distance b :=
  div_pos (mul_pos (mul_pos hc hr) (position_size_factor_pos b))
    (stop_loss_distance_pos b ha)

theorem stepBar_trailing_of_ne (cap risk : ℚ) (st : BState) (b : Bar)
    (hne : st.position ≠ 0) :
    (stepBar cap risk st b).trailing_stop = update_trailing_stop st b := by
  have hc1 : ¬ (b.signal = 1 ∧ st.position = 0) := fun h => hne h.2
  have hc2 : ¬ (b.signal = -1 ∧ st.position = 0) := fun h => hne h.2
  rw [stepBar, if_neg hc1, if_neg hc2, if_pos hne]
  split_ifs <;> rfl

/-- C4: the generated signal is `1` exactly when all nine long conditions
hold, `-1` exactly when all nine short conditions hold, and `0` otherwise;
the two condition sets are mutually exclusive, and the signal equals the
last-write-wins composition in which the short result is written after the
long result. -/
theorem c4_generate_signals_characterization (r : SignalRow) :
    (generate_signals r = 1 ↔ long_condition r) ∧
    (generate_signals r = -1 ↔ short_condition r) ∧
    ¬ (long_condition r ∧ short_condition r) ∧
    generate_signals r =
      (if short_condition r then -1
       else if long_condition r then 1 else 0) := by
  have hex : ¬ (long_condition r ∧ short_condition r) := by
    rintro ⟨hl, hs⟩
    exact absurd hs.1 (not_lt.mpr (le_of_lt hl.1))
  have key : (generate_signals r = 1 ↔ long_condition r) ∧
      (generate_signals r = -1 ↔ short_condition r) ∧
      generate_signals r =
        (if short_condition r then -1
         else if long_condition r then 1 else 0) := by
    by_cases hl : long_condition r <;> by_cases hs : short_condition r
    · exact absurd ⟨hl, hs⟩ hex
    · norm_num [generate_signals, hl, hs]
    · norm_num [generate_signals, hl, hs]
    · norm_num [generate_signals, hl, hs]
  exact ⟨key.1, key.2.1, hex, key.2.2⟩

/-- C4 witness: a concrete row on which all nine long conditions hold is
assigned the long signal. -/
theorem c4_witness : generate_signals rowLong = 1 :=
  (c4_generate_signals_characterization rowLong).1.mpr
    (by norm_num [long_condition, rowLong])

/-- C3: Scenario A.  With `initial_capital = 10000`,
`risk_per_trade = 0.03` and the two bars (close 100, ATR 2, long signal)
and (close 108, ATR 2), the run opens a long at entry price 100 with size
`10000 * 0.03 * 1 / 3.5 = 600/7`, sets the trailing stop to 98, ratchets
it to 105 on bar 1, exits on bar 1 through the take-profit test
(`108 ≥ 100 + 7` while `108 ≤ 105` fails) and returns one closed trade
with profit `4800/7 ≈ 685.71` and ending capital `74800/7 ≈ 10685.71`. -/
theorem c3_scenario_a :
    (stepBar 10000 0.03 (initState 10000) barA0).position = 600 / 7 ∧
    (600 / 7 : ℚ) = 10000 * 0.03 * 1 / 3.5 ∧
    (stepBar 10000 0.03 (initState 10000) barA0).entry_price = 100 ∧
    (stepBar 10000 0.03 (initState 10000) barA0).trailing_stop = 98 ∧
    (stepBar 10000 0.03 (stepBar 10000 0.03 (initState 10000) barA0)
        barA1).trailing_stop = 105 ∧
    take_profit_distance barA1 = 7 ∧
    barA1.close ≥ 100 + take_profit_distance barA1 ∧
    ¬ (barA1.close ≤ 105) ∧
    (backtest_strategy 10000 0.03 [barA0, barA1]).1 =
      [{ direction := Direction.Long
         entry_price := 100
         exit_price := some 108
         profit := some (4800 / 7)
         status := TradeStatus.Closed }] ∧
    (4800 / 7 : ℚ) = (108 - 100) * (600 / 7) ∧
    (backtest_strategy 10000 0.03 [barA0, barA1]).2 = 74800 / 7 := by
  norm_num [backtest_strategy, finalState, forcedClosure, stepBar, initState,
    update_trailing_stop, volatility_factor, stop_loss_distance,
    take_profit_distance, position_size_factor, openTrade, closeTrade,
    updateLast, barA0, barA1, max_def, min_def]

/-- C8 (refuting the guard): on a bar with `ATR = -1 ≤ 0` and a long
signal while flat, `backtest_strategy` does not skip sizing: it computes
`position_size_factor = 0.5`, divides by the negative stop-loss distance
`-2`, opens a "long" position of size `-15/2` and appends an open trade;
nothing is skipped and no warning path exists in the code. -/
theorem c8_no_invalid_volatility_guard :
    barNegAtr.atr ≤ 0 ∧ barNegAtr.signal = 1 ∧
    position_size_factor barNegAtr = 0.5 ∧
    stop_loss_distance barNegAtr = -2 ∧
    (stepBar 1000 0.03 (initState 1000) barNegAtr).position = -(15 / 2) ∧
    (stepBar 1000 0.03 (initState 1000) barNegAtr).position ≠ 0 ∧
    (stepBar 1000 0.03 (initState 1000) barNegAtr).trades =
      [openTrade Direction.Long 100] := by
  norm_num [stepBar, initState, volatility_factor, stop_loss_distance,
    position_size_factor, max_def, min_def, barNegAtr, openTrade]

/-- C9: an empty frame (or one missing a required OHLCV column) is
rejected by the `download_data` validation with `None`, which is how the
caller is informed and the simulation is never entered; and even
`backtest_strategy` itself on an empty bar sequence executes zero loop
iterations, returning no trades and the unchanged initial capital. -/
theorem c9_insufficient_data (cap risk : ℚ) (cols : List String)
    (rows : List α) :
    (rows = [] → download_data cols rows = none) ∧
    ((required_columns.all fun c => cols.contains c) = false →
      download_data cols rows = none) ∧
    backtest_strategy cap risk [] = ([], cap) := by
  refine ⟨?_, ?_, ?_⟩
  · rintro rfl
    rfl
  · intro h
    unfold download_data
    rw [h]
    simp
  · norm_num [backtest_strategy, finalState, forcedClosure, initState]

/-- C9 witness: the empty frame is rejected, and `backtest_strategy` on an
empty sequence returns no trades and the initial capital. -/
theorem c9_witness :
    download_data ["Open"] ([] : List Unit) = none ∧
    backtest_strategy 1000 0.03 [] = ([], 1000) :=
  ⟨(c9_insufficient_data 1000 0.03 ["Open"] ([] : List Unit)).1 rfl,
   (c9_insufficient_data 1000 0.03 ["Open"] ([] : List Unit)).2.2⟩

/-- C6: the volatility buckets are evaluated in order
(`< 0.01` low, `> 0.02` high, otherwise — the boundary values 0.01 and
0.02 included — the middle bucket), giving the stated stop-loss and
take-profit distances; and on a non-flat bar the position closes exactly
when the exit test holds with the take-profit distance recomputed from
this bar (a function of this bar's ATR and close only, not of the bar at
entry). -/
theorem c6_volatility_regime (cap risk : ℚ) (st : BState) (b : Bar) :
    (volatility_factor b < 0.01 →
      stop_loss_distance b = b.atr * 2 ∧
        take_profit_distance b = b.atr * 4) ∧
    (volatility_factor b > 0.02 →
      stop_loss_distance b = b.atr * 1.5 ∧
        take_profit_distance b = b.atr * 3) ∧
    (0.01 ≤ volatility_factor b → volatility_factor b ≤ 0.02 →
      stop_loss_distance b = b.atr * 1.75 ∧
        take_profit_distance b = b.atr * 3.5) ∧
    (0 < st.position →
      ((stepBar cap risk st b).position = 0 ↔
        b.close ≥ st.entry_price + take_profit_distance b ∨
          b.close ≤ update_trailing_stop st b)) ∧
    (st.position < 0 →
      ((stepBar cap risk st b).position = 0 ↔
        b.close ≤ st.entry_price - take_profit_distance b ∨
          b.close ≥ update_trailing_stop st b)) := by
  refine ⟨?_, ?_, ?_, ?_, ?_⟩
  · intro h
    unfold stop_loss_distance take_profit_distance
    rw [if_pos h, if_pos h]
    exact ⟨rfl, rfl⟩
  · intro h
    have h1 : ¬ volatility_factor b < 0.01 := by
      push_neg
      linarith
    unfold stop_loss_distance take_profit_distance
    rw [if_neg h1, if_pos h, if_neg h1, if_pos h]
    exact ⟨rfl, rfl⟩
  · intro hlo hhi
    have h1 : ¬ volatility_factor b < 0.01 := not_lt.mpr hlo
    have h2 : ¬ volatility_factor b > 0.02 := not_lt.mpr hhi
    unfold stop_loss_distance take_profit_distance
    rw [if_neg h1, if_neg h2, if_neg h1, if_neg h2]
    exact ⟨rfl, rfl⟩
  · intro hp
    have hne : st.position ≠ 0 := ne_of_gt hp
    have hc1 : ¬ (b.signal = 1 ∧ st.position = 0) := fun h => hne h.2
    have hc2 : ¬ (b.signal = -1 ∧ st.position = 0) := fun h => hne h.2
    rw [stepBar, if_neg hc1, if_neg hc2, if_pos hne]
    by_cases hcond : b.close ≥ st.entry_price + take_profit_distance b ∨
        b.close ≤ update_trailing_stop st b
    · rw [if_pos ⟨hp, hcond⟩]
      simpa using hcond
    · rw [if_neg fun h => hcond h.2,
        if_neg fun h => absurd hp (not_lt.mpr (le_of_lt h.1))]
      simpa [hne] using hcond
  · intro hn
    have hne : st.position ≠ 0 := ne_of_lt hn
    have hc1 : ¬ (b.signal = 1 ∧ st.position = 0) := fun h => hne h.2
    have hc2 : ¬ (b.signal = -1 ∧ st.position = 0) := fun h => hne h.2
    rw [stepBar, if_neg hc1, if_neg hc2, if_pos hne]
    by_cases hcond : b.close ≤ st.entry_price - take_profit_distance b ∨
        b.close ≥ update_trailing_stop st b
    · rw [if_neg fun h => absurd hn (not_lt.mpr (le_of_lt h.1)),
        if_pos ⟨hn, hcond⟩]
      simpa using hcond
    · rw [if_neg fun h => absurd hn (not_lt.mpr (le_of_lt h.1)),
        if_neg fun h => hcond h.2]
      simpa [hne] using hcond

/-- C6 witness: for a concrete open long position and the Scenario A exit
bar, the close test is exactly the recomputed take-profit-or-trailing-stop
disjunction. -/
theorem c6_witness :
    (stepBar 1000 0.03 stLong barA1).position = 0 ↔
      barA1.close ≥ stLong.entry_price + take_profit_distance barA1 ∨
        barA1.close ≤ update_trailing_stop stLong barA1 :=
  (c6_volatility_regime 1000 0.03 stLong barA1).2.2.2.1
    (by norm_num [stLong])

/-- C7: while a long position is open the trailing stop never decreases
across a bar — it changes only through `max` with the candidate
`close - 1.5 * ATR`, and only when `close > entry_price + ATR`; the short
mirror never increases, through `min` with `close + 1.5 * ATR`. -/
theorem c7_trailing_stop_ratchet (cap risk : ℚ) (st : BState) (b : Bar) :
    (0 < st.position →
      st.trailing_stop ≤ (stepBar cap risk st b).trailing_stop ∧
      (stepBar cap risk st b).trailing_stop =
        (if b.close > st.entry_price + b.atr then
          max st.trailing_stop (b.close - b.atr * 1.5)
         else st.trailing_stop)) ∧
    (st.position < 0 →
      (stepBar cap risk st b).trailing_stop ≤ st.trailing_stop ∧
      (stepBar cap risk st b).trailing_stop =
        (if b.close < st.entry_price - b.atr then
          min st.trailing_stop (b.close + b.atr * 1.5)
         else st.trailing_stop)) := by
  constructor
  · intro hp
    have heq : update_trailing_stop st b =
        (if b.close > st.entry_price + b.atr then
          max st.trailing_stop (b.close - b.atr * 1.5)
         else st.trailing_stop) := by
      unfold update_trailing_stop
      by_cases hA : b.close > st.entry_price + b.atr
      · rw [if_pos ⟨hp, hA⟩, if_pos hA]
      · rw [if_neg fun h => hA h.2,
          if_neg fun h => absurd hp (not_lt.mpr (le_of_lt h.1)), if_neg hA]
    rw [stepBar_trailing_of_ne cap risk st b (ne_of_gt hp), heq]
    refine ⟨?_, rfl⟩
    split_ifs
    · exact le_max_left _ _
    · exact le_refl _
  · intro hn
    have heq : update_trailing_stop st b =
        (if b.close < st.entry_price - b.atr then
          min st.trailing_stop (b.close + b.atr * 1.5)
         else st.trailing_stop) := by
      unfold update_trailing_stop
      by_cases hA : b.close < st.entry_price - b.atr
      · rw [if_neg fun h => absurd hn (not_lt.mpr (le_of_lt h.1)),
          if_pos ⟨hn, hA⟩, if_pos hA]
      · rw [if_neg fun h => absurd hn (not_lt.mpr (le_of_lt h.1)),
          if_neg fun h => hA h.2, if_neg hA]
    rw [stepBar_trailing_of_ne cap risk st b (ne_of_lt hn), heq]
    refine ⟨?_, rfl⟩
    split_ifs
    · exact min_le_left _ _
    · exact le_refl _

/-- C7 witness: for a concrete open long position the trailing stop does
not decrease across the Scenario A exit bar. -/
theorem c7_witness :
    stLong.trailing_stop ≤ (stepBar 1000 0.03 stLong barA1).trailing_stop :=
  ((c7_trailing_stop_ratchet 1000 0.03 stLong barA1).1
    (by norm_num [stLong])).1

theorem stepBar_entry_long (cap risk : ℚ) (st : BState) (b : Bar)
    (hsig : b.signal = 1) (hflat : st.position = 0) :
    stepBar cap risk st b =
      { st with
        position := cap * risk * position_size_factor b /
          stop_loss_distance b
        entry_price := b.close
        trailing_stop := b.close - b.atr
        trades := st.trades ++ [openTrade Direction.Long b.close] } := by
  rw [stepBar, if_pos ⟨hsig, hflat⟩]

theorem stepBar_entry_short (cap risk : ℚ) (st : BState) (b : Bar)
    (hsig : b.signal = -1) (hflat : st.position = 0) :
    stepBar cap risk st b =
      { st with
        position := -(cap * risk * position_size_factor b /
          stop_loss_distance b)
        entry_price := b.close
        trailing_stop := b.close + b.atr
        trades := st.trades ++ [openTrade Direction.Short b.close] } := by
  have h1 : ¬ (b.signal = 1 ∧ st.position = 0) := by
    rintro ⟨h, -⟩
    rw [hsig] at h
    norm_num at h
  rw [stepBar, if_neg h1, if_pos ⟨hsig, hflat⟩]

theorem forcedClosure_some (st : BState) (b : Bar)
    (hne : st.position ≠ 0) :
    forcedClosure st (some b) =
      { st with
        portfolio := st.portfolio + forcedProfit st b
        trades :=
          updateLast (closeTrade b.close (forcedProfit st b)) st.trades } := by
  simp only [forcedClosure]
  rw [if_pos hne]

theorem forcedClosure_some_flat (st : BState) (b : Bar)
    (h : st.position = 0) : forcedClosure st (some b) = st := by
  simp only [forcedClosure]
  rw [if_neg (not_ne_iff.mpr h)]

theorem closedProfitSum_close_last (ts : List Trade) (t : Trade)
    (hop : t.status = TradeStatus.Open) (e p : ℚ) :
    closedProfitSum (updateLast (closeTrade e p) (ts ++ [t])) =
      closedProfitSum (ts ++ [t]) + p := by
  rw [updateLast_append, closedProfitSum_append, closedProfitSum_append, hop]
  simp [closeTrade]

theorem mem_updateLast_close_status (ts : List Trade) (t : Trade)
    (hcl : ∀ u ∈ ts, u.status = TradeStatus.Closed) (e p : ℚ) :
    ∀ u ∈ updateLast (closeTrade e p) (ts ++ [t]),
      u.status = TradeStatus.Closed := by
  intro u hu
  rw [updateLast_append] at hu
  rcases List.mem_append.mp hu with hm | hm
  · exact hcl u hm
  · rw [List.mem_singleton.mp hm]
    rfl

theorem binv_init (cap : ℚ) : BInv cap (initState cap) := by
  refine ⟨by simp [initState, closedProfitSum], ?_, ?_⟩
  · intro _ t ht
    simp [initState] at ht
  · intro h
    exact absurd rfl h

theorem binv_step (cap risk : ℚ) (st : BState) (b : Bar) (hc : 0 < cap)
    (hr : 0 < risk) (ha : 0 < b.atr) (h : BInv cap st) :
    BInv cap (stepBar cap risk st b) := by
  obtain ⟨hport, hflat, hopened⟩ := h
  by_cases h1 : b.signal = 1 ∧ st.position = 0
  · rw [stepBar, if_pos h1]
    refine ⟨?_, ?_, ?_⟩
    · dsimp only
      rw [closedProfitSum_append]
      simp [openTrade, hport]
    · intro h0
      exact absurd h0 (ne_of_gt (entry_size_pos cap risk b hc hr ha))
    · intro _
      exact ⟨st.trades, openTrade Direction.Long b.close, rfl, hflat h1.2, rfl⟩
  · by_cases h2 : b.signal = -1 ∧ st.position = 0
    · rw [stepBar, if_neg h1, if_pos h2]
      refine ⟨?_, ?_, ?_⟩
      · dsimp only
        rw [closedProfitSum_append]
        simp [openTrade, hport]
      · intro h0
        rw [neg_eq_zero] at h0
        exact absurd h0 (ne_of_gt (entry_size_pos cap risk b hc hr ha))
      · intro _
        exact ⟨st.trades, openTrade Direction.Short b.close, rfl,
          hflat h2.2, rfl⟩
    · by_cases h3 : st.position ≠ 0
      · obtain ⟨ts, t, htr, hcl, hop⟩ := hopened h3
        by_cases h4 : st.position > 0 ∧
            (b.close ≥ st.entry_price + take_profit_distance b ∨
              b.close ≤ update_trailing_stop st b)
        · rw [stepBar, if_neg h1, if_neg h2, if_pos h3, if_pos h4]
          refine ⟨?_, ?_, ?_⟩
          · dsimp only
            rw [htr, closedProfitSum_close_last ts t hop, ← htr, hport]
            ring
          · intro _
            rw [htr]
            exact mem_updateLast_close_status ts t hcl _ _
          · intro hne
            exact absurd rfl hne
        · by_cases h5 : st.position < 0 ∧
              (b.close ≤ st.entry_price - take_profit_distance b ∨
                b.close ≥ update_trailing_stop st b)
          · rw [stepBar, if_neg h1, if_neg h2, if_pos h3, if_neg h4,
              if_pos h5]
            refine ⟨?_, ?_, ?_⟩
            · dsimp only
              rw [htr, closedProfitSum_close_last ts t hop, ← htr, hport]
              ring
            · intro _
              rw [htr]
              exact mem_updateLast_close_status ts t hcl _ _
            · intro hne
              exact absurd rfl hne
          · rw [stepBar, if_neg h1, if_neg h2, if_pos h3, if_neg h4,
              if_neg h5]
            exact ⟨hport, fun h0 => absurd h0 h3, fun _ => ⟨ts, t, htr, hcl, hop⟩⟩
      · rw [stepBar, if_neg h1, if_neg h2, if_neg h3]
        exact ⟨hport, hflat, hopened⟩

theorem binv_foldl (cap risk : ℚ) (hc : 0 < cap) (hr : 0 < risk)
    (bars : List Bar) :
    ∀ st : BState, (∀ b ∈ bars, 0 < b.atr) → BInv cap st →
      BInv cap (List.foldl (stepBar cap risk) st bars) := by
  induction bars with
  | nil =>
    intro st _ h
    exact h
  | cons b bars ih =>
    intro st hw h
    rw [List.foldl_cons]
    exact ih _ (fun x hx => hw x (List.mem_cons_of_mem _ hx))
      (binv_step cap risk st b hc hr (hw b (List.mem_cons_self _ _)) h)

theorem foldl_ne_nil_of_position_ne (cap risk : ℚ) (bars : List Bar)
    (h : (List.foldl (stepBar cap risk) (initState cap) bars).position ≠ 0) :
    bars ≠ [] := by
  intro hnil
  subst hnil
  exact h rfl

/-- C1: for every well-formed bar sequence (and positive capital and risk
fraction), the returned portfolio value equals the initial capital plus
the sum of the profit fields of the closed trades in the returned list
(the forced end-of-run closure included); moreover a loop step changes
`portfolio` only when it closes an open position. -/
theorem c1_conservation (cap risk : ℚ) (bars : List Bar) (hw : WfBars bars)
    (hc : 0 < cap) (hr : 0 < risk) :
    (backtest_strategy cap risk bars).2 =
      cap + closedProfitSum (backtest_strategy cap risk bars).1 ∧
    ∀ (st : BState) (b : Bar),
      (stepBar cap risk st b).portfolio ≠ st.portfolio →
        st.position ≠ 0 ∧ (stepBar cap risk st b).position = 0 := by
  constructor
  · obtain ⟨hport, hflat, hopened⟩ :=
      binv_foldl cap risk hc hr bars (initState cap)
        (fun x hx => (hw x hx).1) (binv_init cap)
    unfold backtest_strategy finalState
    set st := List.foldl (stepBar cap risk) (initState cap) bars with hst
    cases hlast : bars.getLast? with
    | none => exact hport
    | some b =>
      by_cases hne : st.position ≠ 0
      · rw [forcedClosure_some st b hne]
        obtain ⟨ts, t, htr, hcl, hop⟩ := hopened hne
        dsimp only
        rw [htr, closedProfitSum_close_last ts t hop, ← htr, hport]
        ring
      · rw [forcedClosure_some_flat st b (not_ne_iff.mp hne)]
        exact hport
  · intro st b hchg
    by_cases h1 : b.signal = 1 ∧ st.position = 0
    · rw [stepBar, if_pos h1] at hchg
      exact absurd rfl hchg
    · by_cases h2 : b.signal = -1 ∧ st.position = 0
      · rw [stepBar, if_neg h1, if_pos h2] at hchg
        exact absurd rfl hchg
      · by_cases h3 : st.position ≠ 0
        · by_cases h4 : st.position > 0 ∧
              (b.close ≥ st.entry_price + take_profit_distance b ∨
                b.close ≤ update_trailing_stop st b)
          · refine ⟨h3, ?_⟩
            rw [stepBar, if_neg h1, if_neg h2, if_pos h3, if_pos h4]
          · by_cases h5 : st.position < 0 ∧
                (b.close ≤ st.entry_price - take_profit_distance b ∨
                  b.close ≥ update_trailing_stop st b)
            · refine ⟨h3, ?_⟩
              rw [stepBar, if_neg h1, if_neg h2, if_pos h3, if_neg h4,
                if_pos h5]
            · rw [stepBar, if_neg h1, if_neg h2, if_pos h3, if_neg h4,
                if_neg h5] at hchg
              exact absurd rfl hchg
        · rw [stepBar, if_neg h1, if_neg h2, if_neg h3] at hchg
          exact absurd rfl hchg

/-- C1 witness: the conservation law evaluated on the Scenario A run. -/
theorem c1_witness :
    (backtest_strategy 10000 0.03 [barA0, barA1]).2 =
      10000 + closedProfitSum (backtest_strategy 10000 0.03 [barA0, barA1]).1 :=
  (c1_conservation 10000 0.03 [barA0, barA1]
    (by norm_num [WfBars, barA0, barA1]) (by norm_num) (by norm_num)).1

/-- C2 counterexample: on a one-bar run whose only bar fires a long entry,
the forced closure closes the trade (the returned list is all-closed) but
the `position` variable of the loop state is left at the entry size
`60/7 ≠ 0`; the claim that the run ends with `position == 0` is false for
this input because the forced-closure block never resets `position`. -/
theorem c2_position_not_reset_cex :
    (∀ t ∈ (backtest_strategy 1000 0.03 [barA0]).1,
        t.status = TradeStatus.Closed) ∧
    (finalState 1000 0.03 [barA0]).position = 60 / 7 ∧
    (60 / 7 : ℚ) ≠ 0 := by
  norm_num [backtest_strategy, finalState, forcedClosure, forcedProfit,
    stepBar, initState, update_trailing_stop, volatility_factor,
    stop_loss_distance, take_profit_distance, position_size_factor,
    openTrade, closeTrade, updateLast, barA0, max_def, min_def]

/-- C2 as amended: for every well-formed bar sequence (positive capital
and risk fraction), every trade in the returned list has status `Closed`;
when a position is still open after the last bar, the forced closure
closes it at the last bar's close price with the same profit formulas,
updating the portfolio and the open trade — but the `position` variable
itself is not reset by the forced-closure block. -/
theorem c2_termination_amended (cap risk : ℚ) (bars : List Bar)
    (hw : WfBars bars) (hc : 0 < cap) (hr : 0 < risk) :
    (∀ t ∈ (backtest_strategy cap risk bars).1,
        t.status = TradeStatus.Closed) ∧
    ((List.foldl (stepBar cap risk) (initState cap) bars).position ≠ 0 →
      ∃ b, bars.getLast? = some b ∧
        backtest_strategy cap risk bars =
          (updateLast
            (closeTrade b.close
              (forcedProfit
                (List.foldl (stepBar cap risk) (initState cap) bars) b))
            (List.foldl (stepBar cap risk) (initState cap) bars).trades,
           (List.foldl (stepBar cap risk) (initState cap) bars).portfolio +
             forcedProfit
               (List.foldl (stepBar cap risk) (initState cap) bars) b)) := by
  obtain ⟨hport, hflat, hopened⟩ :=
    binv_foldl cap risk hc hr bars (initState cap)
      (fun x hx => (hw x hx).1) (binv_init cap)
  constructor
  · unfold backtest_strategy finalState
    set st := List.foldl (stepBar cap risk) (initState cap) bars with hst
    cases hlast : bars.getLast? with
    | none =>
      by_cases hne : st.position ≠ 0
      · have hnil := foldl_ne_nil_of_position_ne cap risk bars hne
        rw [List.getLast?_eq_getLast_of_ne_nil hnil] at hlast
        exact absurd hlast (by simp)
      · exact hflat (not_ne_iff.mp hne)
    | some b =>
      by_cases hne : st.position ≠ 0
      · rw [forcedClosure_some st b hne]
        obtain ⟨ts, t, htr, hcl, hop⟩ := hopened hne
        dsimp only
        rw [htr]
        exact mem_updateLast_close_status ts t hcl _ _
      · rw [forcedClosure_some_flat st b (not_ne_iff.mp hne)]
        exact hflat (not_ne_iff.mp hne)
  · intro hne
    have hnil := foldl_ne_nil_of_position_ne cap risk bars hne
    refine ⟨bars.getLast hnil, List.getLast?_eq_getLast_of_ne_nil hnil, ?_⟩
    unfold backtest_strategy finalState
    rw [List.getLast?_eq_getLast_of_ne_nil hnil,
      forcedClosure_some _ _ hne]

/-- C2 witness: on the one-bar forced-closure run the single returned
trade is closed. -/
theorem c2_witness :
    Trade.status
      { direction := Direction.Long
        entry_price := 100
        exit_price := some 100
        profit := some 0
        status := TradeStatus.Closed } = TradeStatus.Closed :=
  (c2_termination_amended 1000 0.03 [barA0]
    (by norm_num [WfBars, barA0]) (by norm_num) (by norm_num)).1 _
    (by norm_num [backtest_strategy, finalState, forcedClosure, forcedProfit,
      stepBar, initState, update_trailing_stop, volatility_factor,
      stop_loss_distance, take_profit_distance, position_size_factor,
      openTrade, closeTrade, updateLast, barA0, max_def, min_def])

/-- C5 counterexample: after the Scenario A round trip (profit `480/7`)
the running portfolio is `7480/7 ≠ 1000`, yet the long entry on the next
bar is sized as `1000 * 0.03 * 1 / 3.5 = 60/7`, the formula with the
*initial* capital; the claim's formula with the running portfolio capital
gives a different size, so the claim as stated is false on this input. -/
theorem c5_sizing_uses_initial_capital_cex :
    (List.foldl (stepBar 1000 0.03) (initState 1000)
        [barA0, barA1]).position = 0 ∧
    barA2.signal = 1 ∧
    (List.foldl (stepBar 1000 0.03) (initState 1000)
        [barA0, barA1]).portfolio = 7480 / 7 ∧
    (List.foldl (stepBar 1000 0.03) (initState 1000)
        [barA0, barA1, barA2]).position = 60 / 7 ∧
    (60 / 7 : ℚ) =
      1000 * 0.03 * position_size_factor barA2 / stop_loss_distance barA2 ∧
    (60 / 7 : ℚ) ≠
      7480 / 7 * 0.03 * position_size_factor barA2 /
        stop_loss_distance barA2 := by
  norm_num [List.foldl, stepBar, initState, update_trailing_stop,
    volatility_factor, stop_loss_distance, take_profit_distance,
    position_size_factor, openTrade, closeTrade, updateLast, barA0, barA1,
    barA2, max_def, min_def]

/-- C5 as amended: on every flat-to-long transition the position size
factor equals `clamp(0.02 / volatility_factor, 0.5, 1.5)` and lies in
`[0.5, 1.5]`, the size equals
`initial_capital * risk_per_trade * position_size_factor /
stop_loss_distance` — computed from the run's *initial* capital argument,
not the running portfolio — the entry price is the bar's close and the
trailing stop is `close - ATR`; the flat-to-short transition mirrors this
with negated size and trailing stop `close + ATR`. -/
theorem c5_entry_sizing_amended (cap risk : ℚ) (st : BState) (b : Bar)
    (hflat : st.position = 0) :
    (0.5 ≤ position_size_factor b ∧ position_size_factor b ≤ 1.5) ∧
    position_size_factor b = max 0.5 (min 1.5 (0.02 / volatility_factor b)) ∧
    (b.signal = 1 →
      (stepBar cap risk st b).position =
        cap * risk * position_size_factor b / stop_loss_distance b ∧
      (stepBar cap risk st b).entry_price = b.close ∧
      (stepBar cap risk st b).trailing_stop = b.close - b.atr) ∧
    (b.signal = -1 →
      (stepBar cap risk st b).position =
        -(cap * risk * position_size_factor b / stop_loss_distance b) ∧
      (stepBar cap risk st b).entry_price = b.close ∧
      (stepBar cap risk st b).trailing_stop = b.close + b.atr) := by
  refine ⟨⟨half_le_position_size_factor b, position_size_factor_le b⟩, rfl,
    ?_, ?_⟩
  · intro hsig
    rw [stepBar_entry_long cap risk st b hsig hflat]
    exact ⟨rfl, rfl, rfl⟩
  · intro hsig
    rw [stepBar_entry_short cap risk st b hsig hflat]
    exact ⟨rfl, rfl, rfl⟩

/-- C5 witness: the amended sizing formulas evaluated on the Scenario A
entry bar from the initial flat state. -/
theorem c5_witness :
    (stepBar 1000 0.03 (initState 1000) barA0).position =
      1000 * 0.03 * position_size_factor barA0 / stop_loss_distance barA0 ∧
    (stepBar 1000 0.03 (initState 1000) barA0).entry_price = barA0.close ∧
    (stepBar 1000 0.03 (initState 1000) barA0).trailing_stop =
      barA0.close - barA0.atr :=
  (c5_entry_sizing_amended 1000 0.03 (initState 1000) barA0 rfl).2.2.1 rfl

/-- C10: when an entry signal fires on the final bar of a sequence while
the state is flat, the position is opened on that bar and immediately
force-closed at the same bar's close price, so the run returns the
previous trades plus one closed trade with profit exactly `0`, and the
portfolio is unchanged by this trade. -/
theorem c10_entry_on_final_bar (cap risk : ℚ) (bars : List Bar) (b : Bar)
    (hc : 0 < cap) (hr : 0 < risk) (ha : 0 < b.atr)
    (hflat :
      (List.foldl (stepBar cap risk) (initState cap) bars).position = 0) :
    (b.signal = 1 →
      backtest_strategy cap risk (bars ++ [b]) =
        ((List.foldl (stepBar cap risk) (initState cap) bars).trades ++
          [{ direction := Direction.Long
             entry_price := b.close
             exit_price := some b.close
             profit := some 0
             status := TradeStatus.Closed }],
         (List.foldl (stepBar cap risk) (initState cap) bars).portfolio)) ∧
    (b.signal = -1 →
      backtest_strategy cap risk (bars ++ [b]) =
        ((List.foldl (stepBar cap risk) (initState cap) bars).trades ++
          [{ direction := Direction.Short
             entry_price := b.close
             exit_price := some b.close
             profit := some 0
             status := TradeStatus.Closed }],
         (List.foldl (stepBar cap risk) (initState cap) bars).portfolio)) := by
  set st := List.foldl (stepBar cap risk) (initState cap) bars with hst
  have hfold : List.foldl (stepBar cap risk) (initState cap) (bars ++ [b]) =
      stepBar cap risk st b := by
    rw [hst, List.foldl_append, List.foldl_cons, List.foldl_nil]
  have hlast : (bars ++ [b]).getLast? = some b := by
    simp
  have hppos : 0 < cap * risk * position_size_factor b /
      stop_loss_distance b := entry_size_pos cap risk b hc hr ha
  constructor
  · intro hsig
    unfold backtest_strategy finalState
    rw [hfold, hlast, stepBar_entry_long cap risk st b hsig hflat]
    set st2 : BState :=
      { st with
        position := cap * risk * position_size_factor b /
          stop_loss_distance b
        entry_price := b.close
        trailing_stop := b.close - b.atr
        trades := st.trades ++ [openTrade Direction.Long b.close] } with hst2
    have hne : st2.position ≠ 0 := ne_of_gt hppos
    have hprofit : forcedProfit st2 b = 0 := by
      unfold forcedProfit
      rw [if_pos hppos]
      dsimp only
      rw [sub_self, zero_mul]
    rw [forcedClosure_some st2 b hne]
    dsimp only
    rw [hprofit, add_zero, updateLast_append]
    rfl
  · intro hsig
    unfold backtest_strategy finalState
    rw [hfold, hlast, stepBar_entry_short cap risk st b hsig hflat]
    set st2 : BState :=
      { st with
        position := -(cap * risk * position_size_factor b /
          stop_loss_distance b)
        entry_price := b.close
        trailing_stop := b.close + b.atr
        trades := st.trades ++ [openTrade Direction.Short b.close] } with hst2
    have hne : st2.position ≠ 0 := by
      dsimp only [hst2]
      rw [neg_ne_zero]
      exact ne_of_gt hppos
    have hprofit : forcedProfit st2 b = 0 := by
      unfold forcedProfit
      rw [if_neg (not_lt.mpr (le_of_lt (neg_neg_iff_pos.mpr hppos)))]
      dsimp only
      rw [sub_self, zero_mul]
    rw [forcedClosure_some st2 b hne]
    dsimp only
    rw [hprofit, add_zero, updateLast_append]
    rfl

/-- C10 witness: a long signal on the single bar of a one-bar run yields
one closed trade with zero profit and an unchanged portfolio. -/
theorem c10_witness :
    backtest_strategy 1000 0.03 ([] ++ [barA0]) =
      ((List.foldl (stepBar 1000 0.03) (initState 1000) []).trades ++
        [{ direction := Direction.Long
           entry_price := barA0.close
           exit_price := some barA0.close
           profit := some 0
           status := TradeStatus.Closed }],
       (List.foldl (stepBar 1000 0.03) (initState 1000) []).portfolio) :=
  (c10_entry_on_final_bar 1000 0.03 [] barA0 (by norm_num) (by norm_num)
    (by norm_num [barA0]) rfl).1 rfl
